import Mathlib

/-!
Shallow embedding of `egui/src/widgets/label.rs` (the `Label` widget:
configuration builders, the two-path layout algorithm `layout_in_ui`,
the job builders `layout` / `layout_job`, and the paint-command builder
`paint_galley`), together with theorems settling the spec claims.

`f32` values are modelled by the inductive `F` below: a finite rational,
positive/negative infinity, or NaN, with IEEE-style propagation for the
operations the code performs (subtraction, addition, halving).  Overflow of
finite arithmetic is modelled by saturation to the matching infinity when
the exact result's magnitude exceeds `f32::MAX` (rounding itself is not
modelled).

External services (the text shaper `WidgetText::layout_job`, the galley
shaper `LayoutJob::layout`, and the `Ui` allocation entry points
`allocate_rect` / `allocate_exact_size`) are oracles: function-valued fields
of `Env` and `Ui`.  The fatal assertions of the source
(`egui_assert!(first_row_indentation.is_finite())` and
`assert!(!rows.is_empty())`) are modelled by returning `none`.
-/

namespace Egui

/-- Extended float: finite rational, infinities, or NaN (model of `f32`). -/
inductive F where
  | fin (q : ℚ)
  | inf
  | ninf
  | nan
deriving DecidableEq, Repr

/-- Model of `f32::is_finite`. -/
def F.isFinite : F → Bool
  | .fin _ => true
  | _ => false

/-- The largest finite `f32` value, `f32::MAX = (2 - 2^-23) * 2^127`. -/
def F32_MAX : ℚ := 2 ^ 128 - 2 ^ 104

/-- Model of `f32` subtraction: a finite result whose exact magnitude
exceeds `f32::MAX` overflows to the matching infinity. -/
def F.sub : F → F → F
  | .nan, _ => .nan
  | _, .nan => .nan
  | .fin a, .fin b =>
    if F32_MAX < a - b then .inf
    else if a - b < -F32_MAX then .ninf
    else .fin (a - b)
  | .fin _, .inf => .ninf
  | .fin _, .ninf => .inf
  | .inf, .fin _ => .inf
  | .inf, .inf => .nan
  | .inf, .ninf => .inf
  | .ninf, .fin _ => .ninf
  | .ninf, .inf => .ninf
  | .ninf, .ninf => .nan

/-- Model of `f32` addition: a finite result whose exact magnitude exceeds
`f32::MAX` overflows to the matching infinity. -/
def F.add : F → F → F
  | .nan, _ => .nan
  | _, .nan => .nan
  | .fin a, .fin b =>
    if F32_MAX < a + b then .inf
    else if a + b < -F32_MAX then .ninf
    else .fin (a + b)
  | .fin _, .inf => .inf
  | .fin _, .ninf => .ninf
  | .inf, .fin _ => .inf
  | .inf, .inf => .inf
  | .inf, .ninf => .nan
  | .ninf, .fin _ => .ninf
  | .ninf, .inf => .nan
  | .ninf, .ninf => .ninf

/-- Model of division of an `f32` by `2.0`. -/
def F.half : F → F
  | .nan => .nan
  | .inf => .inf
  | .ninf => .ninf
  | .fin a => .fin (a / 2)

/-- Model of `f32::min` (a NaN operand is ignored, as in Rust). -/
def F.fmin : F → F → F
  | .nan, b => b
  | a, .nan => a
  | .ninf, _ => .ninf
  | _, .ninf => .ninf
  | .inf, b => b
  | a, .inf => a
  | .fin a, .fin b => .fin (min a b)

/-- Model of `f32::max` (a NaN operand is ignored, as in Rust). -/
def F.fmax : F → F → F
  | .nan, b => b
  | a, .nan => a
  | .inf, _ => .inf
  | _, .inf => .inf
  | .ninf, b => b
  | a, .ninf => a
  | .fin a, .fin b => .fin (max a b)

/-- Model of `emath::Pos2`. -/
structure Pos2 where
  x : F
  y : F
deriving DecidableEq, Repr

/-- Model of `emath::Vec2`. -/
structure Vec2 where
  x : F
  y : F
deriving DecidableEq, Repr

/-- Model of `emath::Rect` (min/max corners). -/
structure Rect where
  min : Pos2
  max : Pos2
deriving DecidableEq, Repr

def Rect.left (r : Rect) : F := r.min.x

def Rect.top (r : Rect) : F := r.min.y

def Rect.height (r : Rect) : F := r.max.y.sub r.min.y

def Rect.left_top (r : Rect) : Pos2 := ⟨r.min.x, r.min.y⟩

def Rect.center_top (r : Rect) : Pos2 := ⟨(r.min.x.add r.max.x).half, r.min.y⟩

def Rect.right_top (r : Rect) : Pos2 := ⟨r.max.x, r.min.y⟩

/-- Model of `Rect::translate`. -/
def Rect.translate (r : Rect) (v : Vec2) : Rect :=
  ⟨⟨r.min.x.add v.x, r.min.y.add v.y⟩, ⟨r.max.x.add v.x, r.max.y.add v.y⟩⟩

/-- Model of `Rect::union` (componentwise min of mins, max of maxes). -/
def Rect.union (a b : Rect) : Rect :=
  ⟨⟨a.min.x.fmin b.min.x, a.min.y.fmin b.min.y⟩,
   ⟨a.max.x.fmax b.max.x, a.max.y.fmax b.max.y⟩⟩

/-- Model of `egui::Align` (`Align::LEFT = Min`, `Align::RIGHT = Max`). -/
inductive Align where
  | Min
  | Center
  | Max
deriving DecidableEq, Repr

def Align.LEFT : Align := .Min

def Align.RIGHT : Align := .Max

/-- Model of `egui::Direction`. -/
inductive Direction where
  | LeftToRight
  | RightToLeft
  | TopDown
  | BottomUp
deriving DecidableEq, BEq, Repr

/-- Model of `egui::TextStyle` (only `Body` is used by `Label`). -/
inductive TextStyle where
  | Body
  | Monospace
  | Button
  | Heading
  | Small
deriving DecidableEq, Repr

/-- Model of `egui::Sense` as its three boolean components. -/
structure Sense where
  click : Bool
  drag : Bool
  focusable : Bool
deriving DecidableEq, Repr

/-- Modelled from the spec: `Sense::focusable_noninteractive()` lives outside
`src/`; per the spec the default sense is focusable but non-interactive
(neither clickable nor draggable). -/
def Sense.focusable_noninteractive : Sense :=
  { click := false, drag := false, focusable := true }

/-- Model of `Color32` (RGBA components). -/
structure Color32 where
  r : Nat
  g : Nat
  b : Nat
  a : Nat
deriving DecidableEq, Repr

def Color32.TRANSPARENT : Color32 := ⟨0, 0, 0, 0⟩

/-- Model of `epaint::Stroke`. -/
structure Stroke where
  width : F
  color : Color32
deriving DecidableEq, Repr

/-- Model of `Stroke::new`. -/
def Stroke.new (width : F) (color : Color32) : Stroke := ⟨width, color⟩

/-- Model of `Stroke::none()` (zero width, transparent color). -/
def Stroke.none : Stroke := ⟨.fin 0, Color32.TRANSPARENT⟩

/-- Model of `epaint::text::LayoutSection`: only the `leading_space` field is
observed by the code under verification. -/
structure LayoutSection where
  leading_space : F
deriving DecidableEq, Repr

/-- Model of `epaint::text::LayoutJob`: the fields `Label` reads or writes. -/
structure LayoutJob where
  sections : List LayoutSection
  halign : Align
  justify : Bool
  first_row_min_height : F
deriving DecidableEq, Repr

/-- Model of one galley row (`epaint::text::Row`): its bounding rectangle. -/
structure Row where
  rect : Rect
deriving DecidableEq, Repr

/-- Model of `epaint::Galley`: the job it was shaped from, its rows, and its
total bounding size. -/
structure Galley where
  job : LayoutJob
  rows : List Row
  size : Vec2
deriving DecidableEq, Repr

/-- Model of `WidgetTextJob` (a `LayoutJob` plus color bookkeeping). -/
structure WidgetTextJob where
  job : LayoutJob
  job_has_color : Bool
deriving DecidableEq, Repr

/-- Model of `WidgetTextGalley`. -/
structure WidgetTextGalley where
  galley : Galley
  galley_has_color : Bool
deriving DecidableEq, Repr

/-- Model of `WidgetTextGalley::size()` (the shaped galley's total size). -/
def WidgetTextGalley.size (g : WidgetTextGalley) : Vec2 := g.galley.size

/-- Model of `WidgetText` (the styled text; only the plain string is
observed by the code under verification). -/
structure WidgetText where
  text : String
deriving DecidableEq, Repr

/-- Modelled from the spec: `Response` lives outside `src/`; per the spec a
response region carries boolean interaction flags and a bounding
rectangle. -/
structure Response where
  clicked : Bool
  dragged : Bool
  hovered : Bool
  has_focus : Bool
  rect : Rect
deriving DecidableEq, Repr

/-- Modelled from the spec: `Response::union` (the `|=` operator of the
source) lives outside `src/`; per the spec it is the logical OR of the
boolean interaction flags and the union of the bounding geometry. -/
def Response.union (a b : Response) : Response :=
  { clicked := a.clicked || b.clicked
    dragged := a.dragged || b.dragged
    hovered := a.hovered || b.hovered
    has_focus := a.has_focus || b.has_focus
    rect := a.rect.union b.rect }

/-- Model of `egui::Layout`: the fields `Label` reads. -/
structure Layout where
  main_dir : Direction
  main_wrap : Bool
  horizontal_placement : Align
  horizontal_justify : Bool
deriving DecidableEq, Repr

/-- Model of the `Ui` layout/cursor service as observed by `Label` during one
call: the read-only context fields, plus the two allocation entry points as
oracle functions.  (No `Ui` getter is re-read after an allocation in the
source, so the allocation oracles can be pure functions of their
arguments.) -/
structure Ui where
  available_width : F
  available_size_before_wrap : Vec2
  cursor : Rect
  max_rect : Rect
  wrap_text : Bool
  layout : Layout
  is_grid : Bool
  allocate_rect : Rect → Sense → Response
  allocate_exact_size : Vec2 → Sense → Rect × Response

/-- Oracles for the external text services: `WidgetText::layout_job`
(building a shaping job from styled text) and `WidgetTextJob::layout`
(shaping a job into a galley with the fonts). -/
structure Env where
  text_layout_job : WidgetText → Ui → Option Bool → F → TextStyle → WidgetTextJob
  shape : WidgetTextJob → WidgetTextGalley

/-- Model of the `Label` configuration struct. -/
structure Label where
  text : WidgetText
  wrap : Option Bool
  sense : Sense
deriving DecidableEq, Repr

/-- Model of `Label::new`: wrap inherits, sense defaults to
focusable-noninteractive. -/
def Label.new (text : WidgetText) : Label :=
  { text := text, wrap := none, sense := Sense.focusable_noninteractive }

/-- Model of the builder method `Label::wrap` (renamed: the field is already
called `wrap`). -/
def Label.set_wrap (l : Label) (wrap : Bool) : Label :=
  { l with wrap := some wrap }

/-- Model of the builder method `Label::sense` (renamed: the field is already
called `sense`). -/
def Label.set_sense (l : Label) (sense : Sense) : Label :=
  { l with sense := sense }

/-- Model of the accessor `Label::text`. -/
def Label.text_str (l : Label) : String := l.text.text

/-- Model of `Label::layout_job` (label.rs lines 168-176): build the shaping
job for the text and overwrite the first section's leading space, when a
first section exists. -/
def Label.layout_job (l : Label) (ui : Ui) (env : Env)
    (leading_space : F) (available_width : F) : WidgetTextJob :=
  let text_job := env.text_layout_job l.text ui l.wrap available_width TextStyle.Body
  match text_job.job.sections with
  | [] => text_job
  | s :: rest =>
    { text_job with
      job := { text_job.job with
               sections := ({ s with leading_space := leading_space } : LayoutSection) :: rest } }

/-- Model of `Label::layout` (label.rs lines 151-165): the simple-path job,
with the grid special case forcing left alignment and no justification. -/
def Label.layout (l : Label) (ui : Ui) (env : Env) : WidgetTextJob :=
  let available_width := ui.available_width
  let hj : Align × Bool :=
    if ui.is_grid then
      (Align.LEFT, false)
    else
      (ui.layout.horizontal_placement, ui.layout.horizontal_justify)
  let text_job := l.layout_job ui env (.fin 0) available_width
  { text_job with job := { text_job.job with halign := hj.1, justify := hj.2 } }

/-- Model of `epaint::TextShape`, the paint command built by
`Label::paint_galley`. -/
structure TextShape where
  pos : Pos2
  galley : Galley
  override_text_color : Option Color32
  underline : Stroke
  angle : F
deriving DecidableEq, Repr

/-- Model of `Label::paint_galley` (label.rs lines 180-206), returning the
paint command it hands to the painter. -/
def Label.paint_galley (pos : Pos2) (text_galley : WidgetTextGalley)
    (has_focus : Bool) (response_color : Color32) : TextShape :=
  let underline := if has_focus then Stroke.new (.fin 1) response_color else Stroke.none
  let override_text_color : Option Color32 :=
    if text_galley.galley_has_color then none else some response_color
  { pos := pos
    galley := text_galley.galley
    override_text_color := override_text_color
    underline := underline
    angle := .fin 0 }

/-- Model of `self.wrap.unwrap_or_else(|| ui.wrap_text())` (line 213). -/
def Label.should_wrap (l : Label) (ui : Ui) : Bool :=
  l.wrap.getD ui.wrap_text

/-- The branch condition of `layout_in_ui` (label.rs lines 215-218),
transcribed from the source. -/
def Label.usesContinuationPath (l : Label) (ui : Ui) : Bool :=
  l.should_wrap ui
    && decide (ui.layout.main_dir = Direction.LeftToRight)
    && ui.layout.main_wrap
    && ui.available_width.isFinite

/-- The continuation-path shaping job (label.rs lines 223-230): leading
space `max_width - available_size_before_wrap().x`, first row min height
forced to the cursor height, alignment forced to `Align::Min`, justification
forced off. -/
def Label.continuation_text_job (l : Label) (ui : Ui) (env : Env) : WidgetTextJob :=
  let max_width := ui.available_width
  let cursor := ui.cursor
  let first_row_indentation := max_width.sub ui.available_size_before_wrap.x
  let text_job := l.layout_job ui env first_row_indentation max_width
  { text_job with
    job := { text_job.job with
             first_row_min_height := cursor.height
             halign := Align.Min
             justify := false } }

/-- The continuation branch of `layout_in_ui` (label.rs lines 219-247).
The two fatal assertions (`egui_assert!(first_row_indentation.is_finite())`
and `assert!(!rows.is_empty())`) are modelled by returning `none`. -/
def Label.continuationPath (l : Label) (ui : Ui) (env : Env) :
    Option (Pos2 × WidgetTextGalley × Response) :=
  let sense := l.sense
  let max_width := ui.available_width
  let first_row_indentation := max_width.sub ui.available_size_before_wrap.x
  if first_row_indentation.isFinite then
    let text_galley := env.shape (l.continuation_text_job ui env)
    let pos : Pos2 := ⟨ui.max_rect.left, ui.cursor.top⟩
    match text_galley.galley.rows with
    | [] => none
    | row0 :: rest =>
      let rect := row0.rect.translate ⟨pos.x, pos.y⟩
      let first_response := ui.allocate_rect rect sense
      let response := rest.foldl
        (fun response row =>
          response.union (ui.allocate_rect (row.rect.translate ⟨pos.x, pos.y⟩) sense))
        first_response
      some (pos, text_galley, response)
  else
    none

/-- The simple-block branch of `layout_in_ui` (label.rs lines 248-257). -/
def Label.simpleBlockPath (l : Label) (ui : Ui) (env : Env) :
    Option (Pos2 × WidgetTextGalley × Response) :=
  let sense := l.sense
  let text_galley := env.shape (l.layout ui env)
  let p := ui.allocate_exact_size text_galley.size sense
  let pos : Pos2 :=
    match text_galley.galley.job.halign with
    | Align.Min => p.1.left_top
    | Align.Center => p.1.center_top
    | Align.Max => p.1.right_top
  some (pos, text_galley, p.2)

/-- Model of `Label::layout_in_ui` (label.rs lines 209-258). -/
def Label.layout_in_ui (l : Label) (ui : Ui) (env : Env) :
    Option (Pos2 × WidgetTextGalley × Response) :=
  if l.usesContinuationPath ui then
    l.continuationPath ui env
  else
    l.simpleBlockPath ui env

/-- A concrete well-behaved `Ui` used to witness the continuation-path
theorems: a wrapping left-to-right layout with finite widths. -/
def wUi : Ui :=
  { available_width := .fin 10
    available_size_before_wrap := ⟨.fin 4, .fin 2⟩
    cursor := ⟨⟨.fin 6, .fin 0⟩, ⟨.fin 10, .fin 2⟩⟩
    max_rect := ⟨⟨.fin 0, .fin 0⟩, ⟨.fin 10, .fin 20⟩⟩
    wrap_text := true
    layout := ⟨Direction.LeftToRight, true, Align.Center, true⟩
    is_grid := false
    allocate_rect := fun r _ => ⟨true, false, false, false, r⟩
    allocate_exact_size := fun v _ =>
      (⟨⟨.fin 0, .fin 0⟩, ⟨v.x, v.y⟩⟩, ⟨false, false, true, false, ⟨⟨.fin 0, .fin 0⟩, ⟨v.x, v.y⟩⟩⟩) }

/-- A concrete shaping environment used for witnesses: the galley keeps the
job it was shaped from and always has two rows. -/
def wEnv : Env :=
  { text_layout_job := fun _ _ _ _ _ => ⟨⟨[⟨.fin 0⟩], Align.Center, true, .fin 0⟩, false⟩
    shape := fun j =>
      ⟨⟨j.job,
        [⟨⟨⟨.fin 6, .fin 0⟩, ⟨.fin 10, .fin 2⟩⟩⟩, ⟨⟨⟨.fin 0, .fin 2⟩, ⟨.fin 3, .fin 4⟩⟩⟩],
        ⟨.fin 10, .fin 4⟩⟩, false⟩ }

/-- A concrete label used for witnesses. -/
def wLabel : Label := Label.new ⟨"hello world"⟩

/-- A `Ui` whose context service is broken: the available width is finite
(so the continuation path is selected) but the remaining width before wrap
is infinite, making the computed leading space non-finite. -/
def cxUi : Ui :=
  { wUi with available_size_before_wrap := ⟨.inf, .fin 2⟩ }

/-- The spec's decision predicate, transcribed from the spec's words: the
continuation path is used iff the effective wrap flag (the label's override
if set, otherwise the ambient wrap policy) is true, the main direction is
left-to-right, the layout wraps horizontally, and the available width is
finite. -/
def continuation_decision_spec (l : Label) (ui : Ui) : Bool :=
  (match l.wrap with
   | some w => w
   | none => ui.wrap_text)
    && (match ui.layout.main_dir with
        | Direction.LeftToRight => true
        | _ => false)
    && ui.layout.main_wrap
    && ui.available_width.isFinite

/-- C1: `layout_in_ui` selects the continuation (multi-row accumulation)
path if and only if the spec's four conditions all hold (effective wrap flag
true, main direction left-to-right, main wrap enabled, available width
finite); in every other case it takes the simple block path. -/
theorem C1_continuation_path_selection (l : Label) (ui : Ui) (env : Env) :
    l.layout_in_ui ui env =
      if continuation_decision_spec l ui then
        l.continuationPath ui env
      else
        l.simpleBlockPath ui env := by
  have h : l.usesContinuationPath ui = continuation_decision_spec l ui := by
    cases hw : l.wrap <;> cases hd : ui.layout.main_dir <;>
      simp [Label.usesContinuationPath, Label.should_wrap,
        continuation_decision_spec, hw, hd]
  rw [Label.layout_in_ui, h]

/-- C5: in `paint_galley` the override text color is `none` exactly when the
galley carries explicit per-glyph color, and otherwise equals the fallback
(interaction-resolved) color, regardless of focus. -/
theorem C5_override_color (pos : Pos2) (tg : WidgetTextGalley)
    (has_focus : Bool) (response_color : Color32) :
    (Label.paint_galley pos tg has_focus response_color).override_text_color =
      if tg.galley_has_color then none else some response_color := by
  rfl

/-- C6: the simple-path job forces left alignment and no justification when
the ambient layout is a grid, and otherwise takes the layout context's
horizontal placement and justify flag. -/
theorem C6_grid_override (l : Label) (ui : Ui) (env : Env) :
    ((l.layout ui env).job.halign, (l.layout ui env).job.justify) =
      if ui.is_grid then
        (Align.LEFT, false)
      else
        (ui.layout.horizontal_placement, ui.layout.horizontal_justify) := by
  by_cases hg : ui.is_grid <;> simp [Label.layout, hg]

/-- C8: the paint command's underline is a stroke of width 1 in the fallback
color exactly when the widget has keyboard focus and the none/empty stroke
otherwise, and the rotation angle is always 0. -/
theorem C8_underline_and_angle (pos : Pos2) (tg : WidgetTextGalley)
    (has_focus : Bool) (response_color : Color32) :
    (Label.paint_galley pos tg has_focus response_color).underline =
        (if has_focus then Stroke.new (.fin 1) response_color else Stroke.none)
      ∧ (Label.paint_galley pos tg has_focus response_color).angle = .fin 0 := by
  exact ⟨rfl, rfl⟩

/-- C10: each builder operation touches only its own field: `new` gives
wrap-inherit and a focusable-noninteractive sense, `wrap` only sets the wrap
override, `sense` only sets the sense. -/
theorem C10_builder_frame (t : WidgetText) (l : Label) (w : Bool) (s : Sense) :
    (Label.new t).text = t
      ∧ (Label.new t).wrap = none
      ∧ (Label.new t).sense = Sense.focusable_noninteractive
      ∧ (l.set_wrap w).wrap = some w
      ∧ (l.set_wrap w).text = l.text
      ∧ (l.set_wrap w).sense = l.sense
      ∧ (l.set_sense s).sense = s
      ∧ (l.set_sense s).text = l.text
      ∧ (l.set_sense s).wrap = l.wrap := by
  refine ⟨rfl, rfl, rfl, rfl, rfl, rfl, rfl, rfl, rfl⟩

/-- C2: on the continuation path, the first row's leading space equals
`available_width - available_size_before_wrap().x` (when the job has a
first section), and that difference is verified finite before any shaping
or allocation happens: a non-finite difference makes the whole call abort
(`none`), and a successful call implies the difference was finite. -/
theorem C2_first_row_indentation (l : Label) (ui : Ui) (env : Env)
    (hcont : l.usesContinuationPath ui = true) :
    (∀ s ∈ (l.continuation_text_job ui env).job.sections.head?,
        s.leading_space = ui.available_width.sub ui.available_size_before_wrap.x)
      ∧ ((ui.available_width.sub ui.available_size_before_wrap.x).isFinite = false →
          l.layout_in_ui ui env = none)
      ∧ (∀ r, l.layout_in_ui ui env = some r →
          (ui.available_width.sub ui.available_size_before_wrap.x).isFinite = true) := by
  refine ⟨?_, ?_, ?_⟩
  · intro s hs
    cases hsec : (env.text_layout_job l.text ui l.wrap ui.available_width TextStyle.Body).job.sections with
    | nil =>
      simp [Label.continuation_text_job, Label.layout_job, hsec] at hs
    | cons a rest =>
      simp [Label.continuation_text_job, Label.layout_job, hsec] at hs
      subst hs
      rfl
  · intro hnf
    simp [Label.layout_in_ui, hcont, Label.continuationPath, hnf]
  · intro r hr
    cases hfin : (ui.available_width.sub ui.available_size_before_wrap.x).isFinite with
    | false =>
      simp [Label.layout_in_ui, hcont, Label.continuationPath, hfin] at hr
    | true => rfl

/-- C2 witness: the continuation-path theorem instantiated at a concrete
label, context and shaping environment. -/
theorem C2_first_row_indentation_witness :
    wLabel.usesContinuationPath wUi = true
      ∧ ((∀ s ∈ (wLabel.continuation_text_job wUi wEnv).job.sections.head?,
            s.leading_space = wUi.available_width.sub wUi.available_size_before_wrap.x)
          ∧ ((wUi.available_width.sub wUi.available_size_before_wrap.x).isFinite = false →
              wLabel.layout_in_ui wUi wEnv = none)
          ∧ (∀ r, wLabel.layout_in_ui wUi wEnv = some r →
              (wUi.available_width.sub wUi.available_size_before_wrap.x).isFinite = true)) :=
  ⟨by decide, C2_first_row_indentation wLabel wUi wEnv (by decide)⟩

/-- C3: on the continuation path the shaping job is forced to left
(`Align::Min`) alignment with justification off and a first-row minimum
height equal to the cursor rectangle's height, and the anchor position of a
successful call is (left edge of the current max rect, cursor top),
whatever the ambient placement, justify flag or grid status. -/
theorem C3_forced_alignment_and_anchor (l : Label) (ui : Ui) (env : Env)
    (hcont : l.usesContinuationPath ui = true) :
    (l.continuation_text_job ui env).job.halign = Align.Min
      ∧ (l.continuation_text_job ui env).job.justify = false
      ∧ (l.continuation_text_job ui env).job.first_row_min_height = ui.cursor.height
      ∧ ∀ pos g resp, l.layout_in_ui ui env = some (pos, g, resp) →
          pos = ⟨ui.max_rect.left, ui.cursor.top⟩
            ∧ g = env.shape (l.continuation_text_job ui env) := by
  refine ⟨rfl, rfl, rfl, ?_⟩
  intro pos g resp hr
  cases hfin : (ui.available_width.sub ui.available_size_before_wrap.x).isFinite with
  | false =>
    simp [Label.layout_in_ui, hcont, Label.continuationPath, hfin] at hr
  | true =>
    cases hrows : (env.shape (l.continuation_text_job ui env)).galley.rows with
    | nil =>
      simp [Label.layout_in_ui, hcont, Label.continuationPath, hfin, hrows] at hr
    | cons row0 rest =>
      simp [Label.layout_in_ui, hcont, Label.continuationPath, hfin, hrows] at hr
      exact ⟨hr.1.symm, hr.2.1.symm⟩

/-- C3 witness: the forced-alignment theorem instantiated at a concrete
label, context and shaping environment. -/
theorem C3_forced_alignment_and_anchor_witness :
    wLabel.usesContinuationPath wUi = true
      ∧ ((wLabel.continuation_text_job wUi wEnv).job.halign = Align.Min
          ∧ (wLabel.continuation_text_job wUi wEnv).job.justify = false
          ∧ (wLabel.continuation_text_job wUi wEnv).job.first_row_min_height = wUi.cursor.height
          ∧ ∀ pos g resp, wLabel.layout_in_ui wUi wEnv = some (pos, g, resp) →
              pos = ⟨wUi.max_rect.left, wUi.cursor.top⟩
                ∧ g = wEnv.shape (wLabel.continuation_text_job wUi wEnv)) :=
  ⟨by decide, C3_forced_alignment_and_anchor wLabel wUi wEnv (by decide)⟩

/-- Projections of a fold of response unions: a boolean flag that `union`
combines by OR holds of the fold iff it holds of the initial response or of
some later one. -/
theorem response_foldl_union_proj (proj : Response → Bool)
    (hproj : ∀ a b : Response, proj (a.union b) = (proj a || proj b))
    (f : Row → Response) (rows : List Row) (init : Response) :
    proj (rows.foldl (fun a r => a.union (f r)) init)
      = (proj init || rows.any fun r => proj (f r)) := by
  induction rows generalizing init with
  | nil => simp
  | cons r rs ih => simp [List.foldl, ih, hproj, Bool.or_assoc]

/-- C4: on a successful continuation-path call the galley has at least one
row, and the combined response's clicked/dragged/hovered flags are each the
OR over the rows of the response obtained by allocating that row's
rectangle, translated by the anchor position, with the label's sense. -/
theorem C4_response_or_union (l : Label) (ui : Ui) (env : Env)
    (hcont : l.usesContinuationPath ui = true) :
    ∀ pos g resp, l.layout_in_ui ui env = some (pos, g, resp) →
      g.galley.rows ≠ []
        ∧ resp.clicked = (g.galley.rows.any fun row =>
            (ui.allocate_rect (row.rect.translate ⟨pos.x, pos.y⟩) l.sense).clicked)
        ∧ resp.dragged = (g.galley.rows.any fun row =>
            (ui.allocate_rect (row.rect.translate ⟨pos.x, pos.y⟩) l.sense).dragged)
        ∧ resp.hovered = (g.galley.rows.any fun row =>
            (ui.allocate_rect (row.rect.translate ⟨pos.x, pos.y⟩) l.sense).hovered) := by
  intro pos g resp hr
  cases hfin : (ui.available_width.sub ui.available_size_before_wrap.x).isFinite with
  | false =>
    simp [Label.layout_in_ui, hcont, Label.continuationPath, hfin] at hr
  | true =>
    cases hrows : (env.shape (l.continuation_text_job ui env)).galley.rows with
    | nil =>
      simp [Label.layout_in_ui, hcont, Label.continuationPath, hfin, hrows] at hr
    | cons row0 rest =>
      simp [Label.layout_in_ui, hcont, Label.continuationPath, hfin, hrows] at hr
      obtain ⟨hpos, hg, hresp⟩ := hr
      subst hpos
      subst hresp
      rw [← hg, hrows]
      refine ⟨by simp, ?_, ?_, ?_⟩
      · rw [response_foldl_union_proj (fun r => r.clicked) (fun a b => rfl)]
        simp
      · rw [response_foldl_union_proj (fun r => r.dragged) (fun a b => rfl)]
        simp
      · rw [response_foldl_union_proj (fun r => r.hovered) (fun a b => rfl)]
        simp

/-- C4 witness: the response-union theorem instantiated at a concrete
label, context and shaping environment. -/
theorem C4_response_or_union_witness :
    wLabel.usesContinuationPath wUi = true
      ∧ (∀ pos g resp, wLabel.layout_in_ui wUi wEnv = some (pos, g, resp) →
          g.galley.rows ≠ []
            ∧ resp.clicked = (g.galley.rows.any fun row =>
                (wUi.allocate_rect (row.rect.translate ⟨pos.x, pos.y⟩) wLabel.sense).clicked)
            ∧ resp.dragged = (g.galley.rows.any fun row =>
                (wUi.allocate_rect (row.rect.translate ⟨pos.x, pos.y⟩) wLabel.sense).dragged)
            ∧ resp.hovered = (g.galley.rows.any fun row =>
                (wUi.allocate_rect (row.rect.translate ⟨pos.x, pos.y⟩) wLabel.sense).hovered)) :=
  ⟨by decide, C4_response_or_union wLabel wUi wEnv (by decide)⟩

/-- C7: on the simple block path the galley is shaped from the simple-path
job, the response comes from allocating exactly the galley's total size with
the label's sense, and the anchor is the allocated rectangle's left-top,
center-top or right-top according to the resolved horizontal alignment. -/
theorem C7_simple_block_path (l : Label) (ui : Ui) (env : Env)
    (hsimple : l.usesContinuationPath ui = false) :
    ∀ pos g resp, l.layout_in_ui ui env = some (pos, g, resp) →
      g = env.shape (l.layout ui env)
        ∧ resp = (ui.allocate_exact_size g.size l.sense).2
        ∧ (g.galley.job.halign = Align.Min →
            pos = (ui.allocate_exact_size g.size l.sense).1.left_top)
        ∧ (g.galley.job.halign = Align.Center →
            pos = (ui.allocate_exact_size g.size l.sense).1.center_top)
        ∧ (g.galley.job.halign = Align.Max →
            pos = (ui.allocate_exact_size g.size l.sense).1.right_top) := by
  intro pos g resp hr
  simp [Label.layout_in_ui, hsimple, Label.simpleBlockPath] at hr
  obtain ⟨hpos, hg, hresp⟩ := hr
  subst hg
  refine ⟨rfl, hresp.symm, ?_, ?_, ?_⟩ <;> intro ha <;> rw [← hpos, ha]

/-- C7 witness: the simple-path theorem instantiated at a concrete
non-wrapping label, context and shaping environment. -/
theorem C7_simple_block_path_witness :
    (wLabel.set_wrap false).usesContinuationPath wUi = false
      ∧ (∀ pos g resp, (wLabel.set_wrap false).layout_in_ui wUi wEnv = some (pos, g, resp) →
          g = wEnv.shape ((wLabel.set_wrap false).layout wUi wEnv)
            ∧ resp = (wUi.allocate_exact_size g.size (wLabel.set_wrap false).sense).2
            ∧ (g.galley.job.halign = Align.Min →
                pos = (wUi.allocate_exact_size g.size (wLabel.set_wrap false).sense).1.left_top)
            ∧ (g.galley.job.halign = Align.Center →
                pos = (wUi.allocate_exact_size g.size (wLabel.set_wrap false).sense).1.center_top)
            ∧ (g.galley.job.halign = Align.Max →
                pos = (wUi.allocate_exact_size g.size (wLabel.set_wrap false).sense).1.right_top)) :=
  ⟨by decide, C7_simple_block_path (wLabel.set_wrap false) wUi wEnv (by decide)⟩

/-- Subtracting a finite value lying between 0 and a finite representable
minuend neither overflows nor leaves the finite range. -/
theorem F.isFinite_sub_of_bounds (w r : ℚ) (hw : w ≤ F32_MAX)
    (h0 : 0 ≤ r) (hrw : r ≤ w) :
    ((F.fin w).sub (F.fin r)).isFinite = true := by
  have hM : (0 : ℚ) ≤ F32_MAX := le_trans (le_trans h0 hrw) hw
  have h1 : ¬ F32_MAX < w - r := not_lt.mpr (by linarith)
  have h2 : ¬ w - r < -F32_MAX := not_lt.mpr (by linarith)
  simp [F.sub, h1, h2, F.isFinite]

/-- C9 counterexample: with a shaping service that always returns a
nonempty galley but a context whose remaining width before wrap is
infinite, the continuation path is selected and the call still aborts on
the leading-space finiteness assertion — so the shaping contract alone does
not make both assertion branches unreachable. -/
theorem C9_counterexample :
    (cxUi.available_width.isFinite = true
        ∧ (wEnv.shape (wLabel.continuation_text_job cxUi wEnv)).galley.rows ≠ [])
      ∧ wLabel.usesContinuationPath cxUi = true
      ∧ wLabel.layout_in_ui cxUi wEnv = none := by
  decide

/-- C9 amended: under the external contracts that shaping always yields at
least one row and that whenever the context reports a finite available
width `w`, `w` is an actual finite `f32` value (at most `f32::MAX`) and the
remaining width before wrap is a finite value between 0 and `w`, both
assertion-failure branches are unreachable: every call returns a result.
(The second contract rules out both the infinite-remaining-width
counterexample and overflow of the `f32` subtraction at line 224.) -/
theorem C9_assertions_unreachable (l : Label) (ui : Ui) (env : Env)
    (hrows : ∀ j, (env.shape j).galley.rows ≠ [])
    (hctx : ∀ w : ℚ, ui.available_width = F.fin w →
      w ≤ F32_MAX
        ∧ ∃ r : ℚ, ui.available_size_before_wrap.x = F.fin r ∧ 0 ≤ r ∧ r ≤ w) :
    (l.layout_in_ui ui env).isSome = true := by
  cases hc : l.usesContinuationPath ui with
  | false => simp [Label.layout_in_ui, hc, Label.simpleBlockPath]
  | true =>
    have hwfin : ui.available_width.isFinite = true := by
      have hc2 := hc
      simp [Label.usesContinuationPath] at hc2
      exact hc2.2
    obtain ⟨w, hA⟩ : ∃ w : ℚ, ui.available_width = F.fin w := by
      cases hA : ui.available_width with
      | fin q => exact ⟨q, rfl⟩
      | inf => rw [hA] at hwfin; simp [F.isFinite] at hwfin
      | ninf => rw [hA] at hwfin; simp [F.isFinite] at hwfin
      | nan => rw [hA] at hwfin; simp [F.isFinite] at hwfin
    obtain ⟨hwmax, r, hB, h0, hrw⟩ := hctx w hA
    have hsub : (ui.available_width.sub ui.available_size_before_wrap.x).isFinite = true := by
      rw [hA, hB]
      exact F.isFinite_sub_of_bounds w r hwmax h0 hrw
    cases hrs : (env.shape (l.continuation_text_job ui env)).galley.rows with
    | nil => exact absurd hrs (hrows _)
    | cons row0 rest =>
      simp [Label.layout_in_ui, hc, Label.continuationPath, hsub, hrs]

/-- C9 witness: the amended assertion-unreachability theorem instantiated
at a concrete label, context and shaping environment. -/
theorem C9_assertions_unreachable_witness :
    (∀ j, (wEnv.shape j).galley.rows ≠ [])
      ∧ (∀ w : ℚ, wUi.available_width = F.fin w →
          w ≤ F32_MAX
            ∧ ∃ r : ℚ, wUi.available_size_before_wrap.x = F.fin r ∧ 0 ≤ r ∧ r ≤ w)
      ∧ (wLabel.layout_in_ui wUi wEnv).isSome = true := by
  have hctx : ∀ w : ℚ, wUi.available_width = F.fin w →
      w ≤ F32_MAX
        ∧ ∃ r : ℚ, wUi.available_size_before_wrap.x = F.fin r ∧ 0 ≤ r ∧ r ≤ w := by
    intro w hw
    have hw10 : w = 10 := by
      have : F.fin 10 = F.fin w := hw
      injection this with h
      exact h.symm
    subst hw10
    refine ⟨by norm_num [F32_MAX], 4, rfl, by norm_num, by norm_num⟩
  refine ⟨fun j => by simp [wEnv], hctx, ?_⟩
  exact C9_assertions_unreachable wLabel wUi wEnv (fun j => by simp [wEnv]) hctx

end Egui
